import Mathlib

/-!
Verification of the DuReader paddle QA model scaffolding
(src/paddle/qa_model.py, class QAModel) against its specification.

The Python module is shallowly embedded below.  Numeric model outputs
(paragraph lengths and start/end probabilities) are modelled with exact
rationals, paragraph lengths with naturals; paddle graph layers that only
describe wiring (fc, activations) are embedded as syntactic descriptors;
the joint loss is embedded as real-valued arithmetic with Real.log for
the Log activation.
-/

/-- Model of numpy ndarray.argmax on a 1-d array: index of the first
occurrence of the maximum value; undefined (exception) on an empty array,
modelled as none. -/
def npArgmax (l : List ℚ) : Option Nat :=
  match l with
  | [] => none
  | x :: xs => some (List.indexOf (xs.foldl max x) (x :: xs))

/-- Span selection of QAModel.__parse_infer_ret (qa_model.py lines 213-218):
start_idx is the argmax of the start slice; if start_idx < prob_len - 1 the
end search is restricted to end_prob_slice[start_idx:] and offset back by
start_idx, otherwise end_idx = start_idx.  none models the numpy exception
raised by argmax on an empty slice. -/
def selectSpan (prob_len : Nat) (start_prob_slice end_prob_slice : List ℚ) :
    Option (Nat × Nat) :=
  match npArgmax start_prob_slice with
  | none => none
  | some start_idx =>
    if start_idx < prob_len - 1 then
      match npArgmax (end_prob_slice.drop start_idx) with
      | none => none
      | some r => some (start_idx, start_idx + r)
    else
      some (start_idx, start_idx)

/-- Predicted token list (qa_model.py lines 219-220):
empty if start_idx > end_idx, otherwise tokens[start_idx : end_idx + 1]. -/
def predTokens (tokens : List String) (start_idx end_idx : Nat) : List String :=
  if start_idx > end_idx then []
  else (tokens.drop start_idx).take (end_idx + 1 - start_idx)

/-- Predicted answer text (qa_model.py line 221): space-join of the tokens. -/
def predText (tokens : List String) (start_idx end_idx : Nat) : String :=
  String.intercalate " " (predTokens tokens start_idx end_idx)

/-- The per-example fields of one element of a batch input that
__parse_infer_ret reads (ins = ins[-1] holds a dict with these keys). -/
structure InsInput where
  tokens : List String
  answer : List String
  question : String
deriving DecidableEq

/-- A prediction or reference record built by __parse_infer_ret, or
reloaded by __read_list.  Records built by __parse_infer_ret carry the
question text; records reloaded from file do not, hence the Option. -/
structure QAObj where
  answer : List String
  query : Nat
  question : Option String
deriving DecidableEq

/-- The record persisted as one JSON line (qa_model.py lines 231-234). -/
structure StoredObj where
  question : String
  query : Nat
  answer_ref : List String
  answer_pred : List String
deriving DecidableEq

/-- One batch output of the inference run: the flattened paragraph-length
array and the flattened concatenated start/end probability array. -/
structure BatchOutput where
  lens : List Nat
  probs : List ℚ
deriving DecidableEq

/-- Errors that abort __parse_infer_ret: the batch-level assertion
len(probs) == 2 * sum(lens) (line 203), and the ValueError numpy argmax
raises on an empty slice. -/
inductive ParseError
  | assertFail
  | argmaxEmpty
deriving DecidableEq

/-- Body of the per-example loop of __parse_infer_ret (lines 208-238):
consume doc_num lengths starting at idx_len, slice the start and end
probabilities at idx_prob, select the span, build the three records, and
return them with the advanced indices. -/
def parseIns (doc_num : Nat) (lens : List Nat) (probs : List ℚ)
    (idx_len idx_prob : Nat) (ins : InsInput) (ins_cnt : Nat) :
    Option (QAObj × QAObj × StoredObj × Nat × Nat) :=
  let len_slice := (lens.drop idx_len).take doc_num
  let prob_len := len_slice.sum
  let start_prob_slice := (probs.drop idx_prob).take prob_len
  let end_prob_slice := (probs.drop (idx_prob + prob_len)).take prob_len
  match selectSpan prob_len start_prob_slice end_prob_slice with
  | none => none
  | some (start_idx, end_idx) =>
    let pred := predText ins.tokens start_idx end_idx
    let ref := ins.answer
    some ({ answer := ref, query := ins_cnt, question := some ins.question },
          { answer := [pred], query := ins_cnt, question := some ins.question },
          { question := ins.question, query := ins_cnt,
            answer_ref := ref, answer_pred := [pred] },
          idx_len + doc_num,
          idx_prob + prob_len * 2)

/-- The inner loop of __parse_infer_ret over the examples of one batch,
threading idx_len, idx_prob and the run-wide ins_cnt. -/
def parseExamples (doc_num : Nat) (lens : List Nat) (probs : List ℚ) :
    List InsInput → Nat → Nat → Nat →
    Except ParseError (List QAObj × List QAObj × List StoredObj × Nat)
  | [], _, _, ins_cnt => Except.ok ([], [], [], ins_cnt)
  | ins :: rest, idx_len, idx_prob, ins_cnt =>
    match parseIns doc_num lens probs idx_len idx_prob ins ins_cnt with
    | none => Except.error ParseError.argmaxEmpty
    | some (refObj, predObj, storedObj, idx_len1, idx_prob1) =>
      match parseExamples doc_num lens probs rest idx_len1 idx_prob1 (ins_cnt + 1) with
      | Except.error e => Except.error e
      | Except.ok (refs, preds, objs, cnt1) =>
        Except.ok (refObj :: refs, predObj :: preds, storedObj :: objs, cnt1)

/-- The outer loop of __parse_infer_ret over batches (lines 200-239):
per batch, first the assertion len(probs) == 2 * sum(lens), then the
per-example loop; ins_cnt (the query id) runs across batches and is never
reset. -/
def parseBatches (doc_num : Nat) :
    List (List InsInput × BatchOutput) → Nat →
    Except ParseError (List QAObj × List QAObj × List StoredObj)
  | [], _ => Except.ok ([], [], [])
  | (batch_input, bo) :: rest, ins_cnt =>
    if bo.probs.length = 2 * bo.lens.sum then
      match parseExamples doc_num bo.lens bo.probs batch_input 0 0 ins_cnt with
      | Except.error e => Except.error e
      | Except.ok (refs, preds, objs, cnt1) =>
        match parseBatches doc_num rest cnt1 with
        | Except.error e => Except.error e
        | Except.ok (refs1, preds1, objs1) =>
          Except.ok (refs ++ refs1, preds ++ preds1, objs ++ objs1)
    else
      Except.error ParseError.assertFail

/-- The configuration captured by QAModel.__init__ (qa_model.py 31-39). -/
structure QAModelCfg where
  name : String
  emb_dim : Nat
  vocab_size : Nat
  is_infer : Bool
  doc_num : Nat
  static_emb : Bool
  metric : String
deriving DecidableEq

/-- QAModel.__parse_infer_ret (lines 194-239).  Note line 195: the local
doc_num is 5 when the metric is marco and 1 otherwise, regardless of the
configured cfg.doc_num. -/
def QAModel.parse_infer_ret (cfg : QAModelCfg)
    (ret : List (List InsInput × BatchOutput)) :
    Except ParseError (List QAObj × List QAObj × List StoredObj) :=
  parseBatches (if cfg.metric = "marco" then 5 else 1) ret 0

/-- Follows the words of the specification for claim C1: the post-processor
is said to consume documentCount = cfg.doc_num length values per example.
Kept separate from QAModel.parse_infer_ret, which follows the source. -/
def parse_infer_ret_specModel (cfg : QAModelCfg)
    (ret : List (List InsInput × BatchOutput)) :
    Except ParseError (List QAObj × List QAObj × List StoredObj) :=
  parseBatches cfg.doc_num ret 0

/-- Errors raised by QAModel.check_and_create_data: the explicit schema
ValueError (lines 50, 56), the IndexError a Python list raises on an
out-of-range subscript self.inputs[i], and the TypeError reduce raises on
an empty sequence (doc_num = 0). -/
inductive CheckError
  | schemaError
  | indexError
  | typeError
deriving DecidableEq

/-- Syntactic descriptor of the data layers created by
check_and_create_data: layer.data carries the field name, layer.seq_concat
joins two layers. -/
inductive LayerDesc
  | data (name : String)
  | seqConcat (a b : LayerDesc)
deriving DecidableEq

/-- Python subscript self.inputs[i] for 0 <= i: the field name, or
IndexError when i is out of range. -/
def accessIdx (inputs : List String) (i : Nat) : Except CheckError String :=
  match inputs.get? i with
  | some s => Except.ok s
  | none => Except.error CheckError.indexError

/-- Sequential subscripts self.inputs[lo], ..., self.inputs[lo+n-1], as
performed by a loop over range(lo, lo+n); fails with IndexError at the
first out-of-range index. -/
def accessRange (inputs : List String) : Nat → Nat → Except CheckError (List String)
  | _, 0 => Except.ok []
  | lo, n + 1 =>
    match accessIdx inputs lo with
    | Except.error e => Except.error e
    | Except.ok x =>
      match accessRange inputs (lo + 1) n with
      | Except.error e => Except.error e
      | Except.ok xs => Except.ok (x :: xs)

/-- Python reduce(lambda x y: layer.seq_concat(x, y), layers): a left fold,
TypeError on an empty list. -/
def reduceConcat : List LayerDesc → Except CheckError LayerDesc
  | [] => Except.error CheckError.typeError
  | x :: rest => Except.ok (rest.foldl LayerDesc.seqConcat x)

/-- The data layers check_and_create_data leaves on the model instance. -/
structure CreatedData where
  q_ids : LayerDesc
  p_ids : List LayerDesc
  para_len : LayerDesc
  start_label : Option LayerDesc
  end_label : Option LayerDesc
deriving DecidableEq

/-- The schema guard and label creation of QAModel.check_and_create_data
(lines 46-73): in inference mode the guard is len(inputs) < 3 and no labels
are created; in training mode the guard is len(inputs) < 5, then start
labels are read from fields [1+2d, 1+3d) and end labels from [1+3d, 1+4d),
each reduced by seq_concat. -/
def getLabels (is_infer : Bool) (doc_num : Nat) (inputs : List String) :
    Except CheckError (Option (LayerDesc × LayerDesc)) :=
  if is_infer then
    if inputs.length < 3 then Except.error CheckError.schemaError
    else Except.ok none
  else
    if inputs.length < 5 then Except.error CheckError.schemaError
    else
      match accessRange inputs (1 + 2 * doc_num) doc_num with
      | Except.error e => Except.error e
      | Except.ok snames =>
        match reduceConcat (snames.map LayerDesc.data) with
        | Except.error e => Except.error e
        | Except.ok s =>
          match accessRange inputs (1 + 3 * doc_num) doc_num with
          | Except.error e => Except.error e
          | Except.ok enames =>
            match reduceConcat (enames.map LayerDesc.data) with
            | Except.error e => Except.error e
            | Except.ok en => Except.ok (some (s, en))

/-- QAModel.check_and_create_data (qa_model.py lines 41-88).  First the
schema guard and (training only) the label layers; then in both modes the
question ids come from field 0, passage ids from [1, 1+d) and passage
lengths from [1+d, 1+2d), the latter reduced by seq_concat. -/
def check_and_create_data (is_infer : Bool) (doc_num : Nat)
    (inputs : List String) : Except CheckError CreatedData :=
  match getLabels is_infer doc_num inputs with
  | Except.error e => Except.error e
  | Except.ok labels =>
    match accessIdx inputs 0 with
    | Except.error e => Except.error e
    | Except.ok q =>
      match accessRange inputs 1 doc_num with
      | Except.error e => Except.error e
      | Except.ok pnames =>
        match accessRange inputs (1 + doc_num) doc_num with
        | Except.error e => Except.error e
        | Except.ok lnames =>
          match reduceConcat (lnames.map LayerDesc.data) with
          | Except.error e => Except.error e
          | Except.ok pl =>
            Except.ok { q_ids := LayerDesc.data q,
                        p_ids := pnames.map LayerDesc.data,
                        para_len := pl,
                        start_label := labels.map Prod.fst,
                        end_label := labels.map Prod.snd }

/-- QAModel.__read_list (lines 241-251): from each stored JSON line build a
reference record from answer_ref and a prediction record from answer_pred,
each carrying only query and answer (no question field). -/
def read_list (file : List StoredObj) : List QAObj × List QAObj :=
  (file.map (fun o => { query := o.query, answer := o.answer_ref, question := none }),
   file.map (fun o => { query := o.query, answer := o.answer_pred, question := none }))

/-- The metric back-end call QAModel.evaluate dispatches to
(lines 282-285): compute_metrics_from_list(pred, ref, 1) for marco,
squad_eval.eval_lists(pred, ref) for squad. -/
inductive MetricCall
  | marco (preds refs : List QAObj) (maxRefs : Nat)
  | squad (preds refs : List QAObj)
deriving DecidableEq

/-- Errors raised by QAModel.evaluate: the unknown-metric ValueError
(line 287), or an abort propagated from __parse_infer_ret. -/
inductive EvalError
  | unsupportedMetric (m : String)
  | parseFailure (e : ParseError)
deriving DecidableEq

/-- Outcome of a successful QAModel.evaluate call: which metric back end
was invoked and with what arguments, the stored records written to
infer_file (none when from_file is true), and the log lines emitted. -/
structure EvalResult where
  call : MetricCall
  written : Option (List StoredObj)
  logLines : List String
deriving DecidableEq

/-- The log line of QAModel.evaluate (lines 288-290): the file name
followed by space-separated key=value pairs. -/
def formatMetrics (infer_file : String) (metrics : List (String × String)) : String :=
  infer_file ++ " " ++ String.intercalate " " (metrics.map (fun kv => kv.1 ++ "=" ++ kv.2))

/-- QAModel.evaluate (lines 253-290).  metricsOf abstracts the external
metric back ends (squad_eval.eval_lists, compute_metrics_from_list), which
are out-of-scope collaborators: it maps the call the code makes to the
key=value pairs it returns.  When from_file is true the lists come from
__read_list on the persisted records, otherwise from __parse_infer_ret on
ret (whose stored objects are then written to infer_file).  A log line is
emitted only after a metric back end was dispatched successfully. -/
def QAModel.evaluate (metricsOf : MetricCall → List (String × String))
    (cfg : QAModelCfg) (infer_file : String)
    (ret : List (List InsInput × BatchOutput)) (from_file : Bool)
    (fileContents : List StoredObj) : Except EvalError EvalResult :=
  match (if from_file then
          match read_list fileContents with
          | (refs, preds) => Except.ok (refs, preds, none)
        else
          match QAModel.parse_infer_ret cfg ret with
          | Except.error e => Except.error (EvalError.parseFailure e)
          | Except.ok (refs, preds, objs) => Except.ok (refs, preds, some objs)) with
  | Except.error e => Except.error e
  | Except.ok (ref_list, pred_list, written) =>
    if cfg.metric = "marco" then
      Except.ok { call := MetricCall.marco pred_list ref_list 1,
                  written := written,
                  logLines := [formatMetrics infer_file
                    (metricsOf (MetricCall.marco pred_list ref_list 1))] }
    else if cfg.metric = "squad" then
      Except.ok { call := MetricCall.squad pred_list ref_list,
                  written := written,
                  logLines := [formatMetrics infer_file
                    (metricsOf (MetricCall.squad pred_list ref_list))] }
    else
      Except.error (EvalError.unsupportedMetric cfg.metric)

/-- One training example's inputs to QAModel.get_loss: the start and end
probability sequences and the one-hot start and end label sequences, all
over the same concatenated position axis. -/
structure LossInput where
  start_prob : List ℝ
  end_prob : List ℝ
  start_label : List ℝ
  end_label : List ℝ

/-- Per-example part of QAModel.get_loss (lines 118-146): seq_concat the
probabilities and the labels, Log activation elementwise, slope_intercept
with slope -1 and intercept 0, dotmul with the labels, Sum pooling over the
position axis. -/
noncomputable def exampleLoss (x : LossInput) : ℝ :=
  let probs := x.start_prob ++ x.end_prob
  let labels := x.start_label ++ x.end_label
  let log_probs := probs.map Real.log
  let neg_log_probs := log_probs.map (fun v => (-1) * v + 0)
  let loss := List.zipWith (fun a b => a * b) neg_log_probs labels
  loss.sum

/-- QAModel.get_loss over a batch: sum_cost sums the per-example pooled
values across the batch into one scalar. -/
noncomputable def get_loss (batch : List LossInput) : ℝ :=
  (batch.map exampleLoss).sum

/-- Activation descriptors for the fc layers of QAModel.decode. -/
inductive ActKind
  | tanh
  | sequenceSoftmax
deriving DecidableEq

/-- Syntactic descriptor of one paddle layer.fc call: optional layer name,
output size, activation, and the bias_attr argument (none when the call
leaves bias_attr unspecified, i.e. at the framework default). -/
structure FCDesc where
  lname : Option String
  size : Nat
  act : ActKind
  biasAttr : Option Bool
deriving DecidableEq

/-- The two fc layers built by QAModel.decode. -/
structure DecodeDesc where
  latent : FCDesc
  probs : FCDesc
deriving DecidableEq

/-- QAModel.decode (lines 172-192): an fc of size input.size / 2 with Tanh
activation and bias_attr=False, followed by an fc named name of size 1 with
SequenceSoftmax activation and no bias_attr argument. -/
def QAModel.decode (name : String) (inputSize : Nat) : DecodeDesc :=
  { latent := { lname := none, size := inputSize / 2,
                act := ActKind.tanh, biasAttr := some false },
    probs := { lname := some name, size := 1,
               act := ActKind.sequenceSoftmax, biasAttr := none } }

/-! Concrete inputs used by counterexamples and witnesses. -/

/-- A one-token-answer example with two tokens. -/
def insA : InsInput := { tokens := ["a", "b"], answer := ["gold"], question := "q0" }

/-- A well-formed single-example batch: one length 1, two probabilities. -/
def retA : List (List InsInput × BatchOutput) :=
  [([insA], { lens := [1], probs := [Rat.divInt 1 2, Rat.divInt 1 2] })]

/-- The reference record QAModel.__parse_infer_ret builds from retA. -/
def refA : QAObj := { answer := ["gold"], query := 0, question := some "q0" }

/-- The prediction record QAModel.__parse_infer_ret builds from retA. -/
def predA : QAObj := { answer := ["a"], query := 0, question := some "q0" }

/-- The stored record QAModel.__parse_infer_ret builds from retA. -/
def objA : StoredObj :=
  { question := "q0", query := 0, answer_ref := ["gold"], answer_pred := ["a"] }

/-- A batch violating the length/probability invariant:
sum(lens) = 2 but len(probs) = 1, not 4. -/
def badRet : List (List InsInput × BatchOutput) :=
  [([insA], { lens := [2], probs := [Rat.divInt 1 2] })]

/-- A configuration with three configured documents but the squad metric. -/
def cfgC1 : QAModelCfg :=
  { name := "m", emb_dim := 1, vocab_size := 1, is_infer := true,
    doc_num := 3, static_emb := false, metric := "squad" }

/-- A single-example batch with three length entries (1 + 1 + 2 = 4) and
eight strictly increasing probabilities. -/
def insC1 : InsInput :=
  { tokens := ["t0", "t1", "t2", "t3"], answer := ["r"], question := "q" }

/-- The batch list paired with insC1. -/
def retC1 : List (List InsInput × BatchOutput) :=
  [([insC1], { lens := [1, 1, 2], probs := [1, 2, 3, 4, 5, 6, 7, 8] })]

/-- A single-document squad configuration used to instantiate universal
theorems at concrete inputs. -/
def cfgW : QAModelCfg :=
  { name := "m", emb_dim := 1, vocab_size := 1, is_infer := true,
    doc_num := 1, static_emb := false, metric := "squad" }

/-- A configuration whose metric is neither marco nor squad. -/
def cfgFoo : QAModelCfg :=
  { name := "m", emb_dim := 1, vocab_size := 1, is_infer := true,
    doc_num := 1, static_emb := false, metric := "foo" }

/-- The reference record __read_list reconstructs from one stored line. -/
def toRefObj (o : StoredObj) : QAObj :=
  { query := o.query, answer := o.answer_ref, question := none }

/-- The prediction record __read_list reconstructs from one stored line. -/
def toPredObj (o : StoredObj) : QAObj :=
  { query := o.query, answer := o.answer_pred, question := none }

/-- Forget the question field of an in-memory record, for comparing it
with a record reloaded from file. -/
def dropQuestion (o : QAObj) : QAObj :=
  { o with question := none }

/-! Claim theorems. -/

/-- Each parsed example advances idx_len by doc_num and idx_prob by twice
the sum of the doc_num consumed length values. -/
theorem parseIns_advance (d : Nat) (lens : List Nat) (probs : List ℚ)
    (il ip : Nat) (ins : InsInput) (cnt : Nat)
    (ro po : QAObj) (so : StoredObj) (il1 ip1 : Nat)
    (h : parseIns d lens probs il ip ins cnt = some (ro, po, so, il1, ip1)) :
    il1 = il + d ∧ ip1 = ip + 2 * ((lens.drop il).take d).sum := by
  simp only [parseIns] at h
  split at h
  · exact absurd h (by simp)
  · simp only [Option.some.injEq, Prod.mk.injEq] at h
    obtain ⟨-, -, -, h4, h5⟩ := h
    omega

/-- The records built for one example agree with what __read_list later
reconstructs from the stored record, except that the reloaded records lack
the question field; the prediction answer list has exactly one entry. -/
theorem parseIns_records (d : Nat) (lens : List Nat) (probs : List ℚ)
    (il ip : Nat) (ins : InsInput) (cnt : Nat)
    (ro po : QAObj) (so : StoredObj) (il1 ip1 : Nat)
    (h : parseIns d lens probs il ip ins cnt = some (ro, po, so, il1, ip1)) :
    toRefObj so = dropQuestion ro ∧ toPredObj so = dropQuestion po
    ∧ po.answer.length = 1 := by
  simp only [parseIns] at h
  split at h
  · exact absurd h (by simp)
  · simp only [Option.some.injEq, Prod.mk.injEq] at h
    obtain ⟨h1, h2, h3, -, -⟩ := h
    subst h1; subst h2; subst h3
    exact ⟨rfl, rfl, rfl⟩

/-- parseExamples version of parseIns_records, over one batch. -/
theorem parseExamples_records (d : Nat) (lens : List Nat) (probs : List ℚ) :
    ∀ (inss : List InsInput) (il ip cnt : Nat)
      (refs preds : List QAObj) (objs : List StoredObj) (cnt1 : Nat),
      parseExamples d lens probs inss il ip cnt = Except.ok (refs, preds, objs, cnt1) →
      objs.map toRefObj = refs.map dropQuestion
      ∧ objs.map toPredObj = preds.map dropQuestion
      ∧ ∀ q ∈ preds, q.answer.length = 1 := by
  intro inss
  induction inss with
  | nil =>
    intro il ip cnt refs preds objs cnt1 h
    simp only [parseExamples, Except.ok.injEq, Prod.mk.injEq] at h
    obtain ⟨h1, h2, h3, -⟩ := h
    subst h1; subst h2; subst h3
    simp
  | cons ins rest ih =>
    intro il ip cnt refs preds objs cnt1 h
    simp only [parseExamples] at h
    cases h1 : parseIns d lens probs il ip ins cnt with
    | none => rw [h1] at h; exact absurd h (by simp)
    | some tup =>
      obtain ⟨ro, po, so, il1, ip1⟩ := tup
      rw [h1] at h
      dsimp only at h
      cases h2 : parseExamples d lens probs rest il1 ip1 (cnt + 1) with
      | error e => rw [h2] at h; exact absurd h (by simp)
      | ok tup2 =>
        obtain ⟨refs2, preds2, objs2, cnt2⟩ := tup2
        rw [h2] at h
        simp only [Except.ok.injEq, Prod.mk.injEq] at h
        obtain ⟨h3, h4, h5, -⟩ := h
        subst h3; subst h4; subst h5
        obtain ⟨ha, hb, hc⟩ := ih il1 ip1 (cnt + 1) refs2 preds2 objs2 cnt2 h2
        obtain ⟨hra, hrb, hrc⟩ :=
          parseIns_records d lens probs il ip ins cnt ro po so il1 ip1 h1
        refine ⟨?_, ?_, ?_⟩
        · simp [List.map_cons, hra, ha]
        · simp [List.map_cons, hrb, hb]
        · intro q hq
          rcases List.mem_cons.mp hq with hq1 | hq2
          · rw [hq1]; exact hrc
          · exact hc q hq2

/-- parseBatches version of parseIns_records, over the whole run. -/
theorem parseBatches_records (d : Nat) :
    ∀ (ret : List (List InsInput × BatchOutput)) (cnt : Nat)
      (refs preds : List QAObj) (objs : List StoredObj),
      parseBatches d ret cnt = Except.ok (refs, preds, objs) →
      objs.map toRefObj = refs.map dropQuestion
      ∧ objs.map toPredObj = preds.map dropQuestion
      ∧ ∀ q ∈ preds, q.answer.length = 1 := by
  intro ret
  induction ret with
  | nil =>
    intro cnt refs preds objs h
    simp only [parseBatches, Except.ok.injEq, Prod.mk.injEq] at h
    obtain ⟨h1, h2, h3⟩ := h
    subst h1; subst h2; subst h3
    simp
  | cons hd rest ih =>
    obtain ⟨bi, bo⟩ := hd
    intro cnt refs preds objs h
    simp only [parseBatches] at h
    by_cases hassert : bo.probs.length = 2 * bo.lens.sum
    · rw [if_pos hassert] at h
      cases h1 : parseExamples d bo.lens bo.probs bi 0 0 cnt with
      | error e => rw [h1] at h; exact absurd h (by simp)
      | ok tup =>
        obtain ⟨refs1, preds1, objs1, cnt1⟩ := tup
        rw [h1] at h
        dsimp only at h
        cases h2 : parseBatches d rest cnt1 with
        | error e => rw [h2] at h; exact absurd h (by simp)
        | ok tup2 =>
          obtain ⟨refs2, preds2, objs2⟩ := tup2
          rw [h2] at h
          simp only [Except.ok.injEq, Prod.mk.injEq] at h
          obtain ⟨h3, h4, h5⟩ := h
          subst h3; subst h4; subst h5
          obtain ⟨ha, hb, hc⟩ :=
            parseExamples_records d bo.lens bo.probs bi 0 0 cnt refs1 preds1 objs1 cnt1 h1
          obtain ⟨hd2, he2, hf2⟩ := ih cnt1 refs2 preds2 objs2 h2
          refine ⟨?_, ?_, ?_⟩
          · simp [List.map_append, ha, hd2]
          · simp [List.map_append, hb, he2]
          · intro q hq
            rcases List.mem_append.mp hq with hq1 | hq2
            · exact hc q hq1
            · exact hf2 q hq2
    · rw [if_neg hassert] at h
      exact absurd h (by simp)

/-- C3: the Post-Processor picks start_idx as the first maximizer of the
start slice (npArgmax embeds numpy argmax, whose tie-break is the lowest
index); when start_idx < prob_len - 1 it picks
end_idx = start_idx + argmax(end_prob_slice[start_idx:]) and otherwise
end_idx = start_idx; the predicted answer is empty when
start_idx > end_idx and otherwise the space-joined slice
tokens[start_idx : end_idx+1]; and on start_prob_slice = [0.1, 0.7, 0.2],
end_prob_slice = [0.05, 0.1, 0.85] it yields start_idx = 1, end_idx = 2
and the span tokens[1:3]. -/
theorem C3_span_selection :
    (∀ (prob_len : Nat) (s e : List ℚ) (start_idx : Nat),
        npArgmax s = some start_idx →
        selectSpan prob_len s e =
          if start_idx < prob_len - 1 then
            (npArgmax (e.drop start_idx)).map (fun r => (start_idx, start_idx + r))
          else some (start_idx, start_idx))
    ∧ (∀ (tokens : List String) (si ei : Nat),
        predText tokens si ei =
          if si > ei then ""
          else String.intercalate " " ((tokens.drop si).take (ei + 1 - si)))
    ∧ selectSpan 3 [Rat.divInt 1 10, Rat.divInt 7 10, Rat.divInt 2 10] [Rat.divInt 1 20, Rat.divInt 1 10, Rat.divInt 17 20] = some (1, 2)
    ∧ (∀ tokens : List String, predTokens tokens 1 2 = (tokens.drop 1).take 2) := by
  refine ⟨?_, ?_, by decide, ?_⟩
  · intro prob_len s e start_idx h
    simp only [selectSpan, h]
    by_cases hlt : start_idx < prob_len - 1
    · rw [if_pos hlt]
      cases he : npArgmax (e.drop start_idx) <;> simp [he, hlt]
    · rw [if_neg hlt, if_neg hlt]
  · intro tokens si ei
    simp only [predText, predTokens]
    by_cases hgt : si > ei
    · rw [if_pos hgt, if_pos hgt]
      rfl
    · rw [if_neg hgt, if_neg hgt]
  · intro tokens
    simp [predTokens]

/-- C3 witness: the first conjunct of C3_span_selection instantiated at the
concrete slices of the claim. -/
theorem C3_span_selection_witness :
    selectSpan 3 [Rat.divInt 1 10, Rat.divInt 7 10, Rat.divInt 2 10] [Rat.divInt 1 20, Rat.divInt 1 10, Rat.divInt 17 20] =
      if 1 < 3 - 1 then
        (npArgmax (([Rat.divInt 1 20, Rat.divInt 1 10, Rat.divInt 17 20] : List ℚ).drop 1)).map (fun r => (1, 1 + r))
      else some (1, 1) :=
  C3_span_selection.1 3 [Rat.divInt 1 10, Rat.divInt 7 10, Rat.divInt 2 10] [Rat.divInt 1 20, Rat.divInt 1 10, Rat.divInt 17 20] 1 (by decide)

/-- C4 counterexample: with start_prob_slice = [0.1, 0.9] and
end_prob_slice = [0.9, 0.1], start_idx = 1 = prob_len - 1; the code sets
end_idx = start_idx = 1, whereas the claim says end_idx is the argmax of
the full end slice (which is 0) and the answer would then be empty; the
code instead yields the non-empty one-token span. -/
theorem C4_counterexample :
    selectSpan 2 [Rat.divInt 1 10, Rat.divInt 9 10] [Rat.divInt 9 10, Rat.divInt 1 10] = some (1, 1)
    ∧ npArgmax [Rat.divInt 9 10, Rat.divInt 1 10] = some 0
    ∧ predTokens ["a", "b"] 1 1 = ["b"] := by
  refine ⟨by decide, by decide, by decide⟩

/-- C4 amended: when start_idx is not below prob_len - 1 (in particular at
the last position), no end search happens at all: end_idx = start_idx, and
the predicted span is the single token at start_idx (never empty). -/
theorem C4_amended :
    ∀ (prob_len : Nat) (s e : List ℚ) (start_idx : Nat) (tokens : List String),
      npArgmax s = some start_idx → ¬ start_idx < prob_len - 1 →
      selectSpan prob_len s e = some (start_idx, start_idx)
      ∧ predTokens tokens start_idx start_idx = (tokens.drop start_idx).take 1 := by
  intro prob_len s e start_idx tokens h hlt
  constructor
  · simp only [selectSpan, h]
    rw [if_neg hlt]
  · have h1 : start_idx + 1 - start_idx = 1 := by omega
    simp [predTokens, h1]

/-- C4 amended witness: instantiated at the concrete slices of the
counterexample. -/
theorem C4_amended_witness :
    selectSpan 2 [Rat.divInt 1 10, Rat.divInt 9 10] [Rat.divInt 9 10, Rat.divInt 1 10] = some (1, 1)
    ∧ predTokens ["x", "y"] 1 1 = ((["x", "y"] : List String).drop 1).take 1 :=
  C4_amended 2 [Rat.divInt 1 10, Rat.divInt 9 10] [Rat.divInt 9 10, Rat.divInt 1 10] 1 ["x", "y"] (by decide) (by decide)

/-- C9 counterexample: decode disables the bias only on the hidden
projection; the scalar-score fc call leaves bias_attr unspecified (the
framework default, which creates a bias), so the claim that the score has
no bias term does not match the code. -/
theorem C9_counterexample :
    (QAModel.decode "start" 100).latent.biasAttr = some false
    ∧ (QAModel.decode "start" 100).probs.biasAttr ≠ some false := by decide

/-- C9 amended: decode builds a hidden projection of width D/2 with tanh
and bias explicitly disabled, then a scalar per-position score layer with
SequenceSoftmax activation whose bias_attr is left unspecified (framework
default), returning the softmax probability sequence. -/
theorem C9_amended : ∀ (name : String) (d : Nat),
    (QAModel.decode name d).latent.size = d / 2
    ∧ (QAModel.decode name d).latent.act = ActKind.tanh
    ∧ (QAModel.decode name d).latent.biasAttr = some false
    ∧ (QAModel.decode name d).probs.lname = some name
    ∧ (QAModel.decode name d).probs.size = 1
    ∧ (QAModel.decode name d).probs.act = ActKind.sequenceSoftmax
    ∧ (QAModel.decode name d).probs.biasAttr = none := by
  intro name d
  exact ⟨rfl, rfl, rfl, rfl, rfl, rfl, rfl⟩

/-- C1 counterexample: with doc_num = 3 configured and metric squad, the
Post-Processor consumes one length value per example (the hard-coded
5-if-marco-else-1 of line 195), not the configured three: on a batch with
lens [1, 1, 2] it selects within the first single-length slice and
predicts token t0, while the spec-modelled variant that consumes
cfg.doc_num lengths predicts t3. -/
theorem C1_counterexample :
    QAModel.parse_infer_ret cfgC1 retC1 =
      Except.ok ([{ answer := ["r"], query := 0, question := some "q" }],
                 [{ answer := ["t0"], query := 0, question := some "q" }],
                 [{ question := "q", query := 0,
                    answer_ref := ["r"], answer_pred := ["t0"] }])
    ∧ parse_infer_ret_specModel cfgC1 retC1 =
      Except.ok ([{ answer := ["r"], query := 0, question := some "q" }],
                 [{ answer := ["t3"], query := 0, question := some "q" }],
                 [{ question := "q", query := 0,
                    answer_ref := ["r"], answer_pred := ["t3"] }])
    ∧ (["t0"] : List String) ≠ ["t3"] :=
  ⟨rfl, rfl, by decide⟩

/-- C1 amended: for every example, the Post-Processor consumes exactly
(5 if metric is marco else 1) consecutive length values from lens to form
prob_len, and advances idx_len by that count and idx_prob by 2*prob_len;
the configured doc_num plays no role. -/
theorem C1_amended :
    ∀ (cfg : QAModelCfg) (lens : List Nat) (probs : List ℚ)
      (il ip : Nat) (ins : InsInput) (cnt : Nat)
      (ro po : QAObj) (so : StoredObj) (il1 ip1 : Nat),
      parseIns (if cfg.metric = "marco" then 5 else 1) lens probs il ip ins cnt
        = some (ro, po, so, il1, ip1) →
      il1 = il + (if cfg.metric = "marco" then 5 else 1)
      ∧ ip1 = ip + 2 * ((lens.drop il).take (if cfg.metric = "marco" then 5 else 1)).sum := by
  intro cfg lens probs il ip ins cnt ro po so il1 ip1 h
  exact parseIns_advance (if cfg.metric = "marco" then 5 else 1)
    lens probs il ip ins cnt ro po so il1 ip1 h

/-- C1 amended witness: instantiated at a squad configuration and a
one-length batch. -/
theorem C1_amended_witness :
    1 = 0 + (if cfgW.metric = "marco" then 5 else 1)
    ∧ 2 = 0 + 2 * ((([1] : List Nat).drop 0).take
        (if cfgW.metric = "marco" then 5 else 1)).sum :=
  C1_amended cfgW [1] [Rat.divInt 1 2, Rat.divInt 1 2] 0 0 insA 0
    { answer := ["gold"], query := 0, question := some "q0" }
    { answer := ["a"], query := 0, question := some "q0" }
    { question := "q0", query := 0, answer_ref := ["gold"], answer_pred := ["a"] }
    1 2 rfl

/-- C5: if any batch of the run violates len(probs) = 2 * sum(lens), the
Post-Processor never returns a result (the run aborts); a concretely
mismatched batch fails with exactly the assertion error. -/
theorem C5_assert_invariant :
    (∀ (d : Nat) (ret : List (List InsInput × BatchOutput)) (cnt : Nat),
        (∃ b ∈ ret, b.2.probs.length ≠ 2 * b.2.lens.sum) →
        ∀ out, parseBatches d ret cnt ≠ Except.ok out)
    ∧ parseBatches 1 badRet 0 = Except.error ParseError.assertFail := by
  constructor
  · intro d ret
    induction ret with
    | nil =>
      intro cnt hex out
      obtain ⟨b, hb, -⟩ := hex
      exact absurd hb (List.not_mem_nil b)
    | cons hd rest ih =>
      intro cnt hex out
      obtain ⟨bi, bo⟩ := hd
      obtain ⟨b, hb, hne⟩ := hex
      simp only [parseBatches]
      by_cases hassert : bo.probs.length = 2 * bo.lens.sum
      · rw [if_pos hassert]
        rcases List.mem_cons.mp hb with hb1 | hb2
        · exfalso
          apply hne
          rw [hb1]
          exact hassert
        · cases h1 : parseExamples d bo.lens bo.probs bi 0 0 cnt with
          | error e => simp
          | ok tup =>
            obtain ⟨refs1, preds1, objs1, cnt1⟩ := tup
            dsimp only
            cases h2 : parseBatches d rest cnt1 with
            | error e => simp
            | ok tup2 => exact absurd h2 (ih cnt1 ⟨b, hb2, hne⟩ tup2)
      · rw [if_neg hassert]
        simp
  · rfl

/-- C5 witness: the universal half applied to the concrete mismatched
batch badRet. -/
theorem C5_assert_invariant_witness :
    parseBatches 1 badRet 0 ≠ Except.ok ([], [], []) :=
  C5_assert_invariant.1 1 badRet 0
    ⟨([insA], { lens := [2], probs := [Rat.divInt 1 2] }),
     List.mem_singleton.mpr rfl, by decide⟩ ([], [], [])

/-- C6 counterexample: parsing retA yields in-memory records that carry
the question text, but reloading the persisted stored records via
__read_list yields records without it, so the reloaded lists are not
identical to the in-memory ones. -/
theorem C6_counterexample :
    parseBatches 1 retA 0 = Except.ok ([refA], [predA], [objA])
    ∧ read_list [objA] ≠ ([refA], [predA]) :=
  ⟨rfl, by decide⟩

/-- C6 amended: reloading the persisted stored records reproduces the
in-memory reference and prediction lists with their query and answer
fields intact and in the same order; only the question field is absent
from the reloaded records. -/
theorem C6_amended :
    ∀ (d : Nat) (ret : List (List InsInput × BatchOutput))
      (refs preds : List QAObj) (objs : List StoredObj),
      parseBatches d ret 0 = Except.ok (refs, preds, objs) →
      read_list objs = (refs.map dropQuestion, preds.map dropQuestion) := by
  intro d ret refs preds objs h
  obtain ⟨h1, h2, -⟩ := parseBatches_records d ret 0 refs preds objs h
  simp only [read_list]
  rw [Prod.mk.injEq]
  exact ⟨h1, h2⟩

/-- C6 amended witness: instantiated at the concrete batch retA. -/
theorem C6_amended_witness :
    read_list [objA] = ([refA].map dropQuestion, [predA].map dropQuestion) :=
  C6_amended 1 retA [refA] [predA] [objA] rfl

/-- C10: for every example the Post-Processor produces, start_idx is at
most end_idx, the empty-span branch (start_idx > end_idx) is therefore
unreachable, and every prediction record's answer list has exactly one
string. -/
theorem C10_span_invariant :
    (∀ (prob_len : Nat) (s e : List ℚ) (si ei : Nat),
        selectSpan prob_len s e = some (si, ei) → si ≤ ei)
    ∧ (∀ (tokens : List String) (si ei : Nat), si ≤ ei →
        predTokens tokens si ei = (tokens.drop si).take (ei + 1 - si))
    ∧ (∀ (d : Nat) (ret : List (List InsInput × BatchOutput)) (cnt : Nat)
        (refs preds : List QAObj) (objs : List StoredObj),
        parseBatches d ret cnt = Except.ok (refs, preds, objs) →
        ∀ q ∈ preds, q.answer.length = 1) := by
  refine ⟨?_, ?_, ?_⟩
  · intro prob_len s e si ei h
    simp only [selectSpan] at h
    cases h1 : npArgmax s with
    | none => rw [h1] at h; exact absurd h (by simp)
    | some si0 =>
      rw [h1] at h
      dsimp only at h
      by_cases hlt : si0 < prob_len - 1
      · rw [if_pos hlt] at h
        cases h2 : npArgmax (e.drop si0) with
        | none => rw [h2] at h; exact absurd h (by simp)
        | some r =>
          rw [h2] at h
          simp only [Option.some.injEq, Prod.mk.injEq] at h
          omega
      · rw [if_neg hlt] at h
        simp only [Option.some.injEq, Prod.mk.injEq] at h
        omega
  · intro tokens si ei hle
    simp only [predTokens]
    rw [if_neg (by omega)]
  · intro d ret cnt refs preds objs h
    exact (parseBatches_records d ret cnt refs preds objs h).2.2

/-- C10 witness: the span part at a concrete one-position slice, and the
record part at the concrete batch retA. -/
theorem C10_span_invariant_witness :
    (0 ≤ 0 ∧ predA.answer.length = 1) :=
  ⟨C10_span_invariant.1 1 [Rat.divInt 1 2] [Rat.divInt 1 2] 0 0 rfl,
   C10_span_invariant.2.2 1 retA 0 [refA] [predA] [objA] rfl
     predA (List.mem_singleton.mpr rfl)⟩

/-- A subscript below the length succeeds. -/
theorem accessIdx_lt (inputs : List String) (i : Nat) (h : i < inputs.length) :
    accessIdx inputs i = Except.ok (inputs.get ⟨i, h⟩) := by
  unfold accessIdx
  rw [List.get?_eq_get h]

/-- A subscript at or above the length raises IndexError. -/
theorem accessIdx_ge (inputs : List String) (i : Nat) (h : inputs.length ≤ i) :
    accessIdx inputs i = Except.error CheckError.indexError := by
  unfold accessIdx
  rw [List.get?_eq_none.mpr h]

/-- A range of subscripts that stays within the length succeeds and yields
one name per index. -/
theorem accessRange_ok (inputs : List String) :
    ∀ (n lo : Nat), lo + n ≤ inputs.length →
      ∃ xs, accessRange inputs lo n = Except.ok xs ∧ xs.length = n := by
  intro n
  induction n with
  | zero => intro lo h; exact ⟨[], rfl, rfl⟩
  | succ n ih =>
    intro lo h
    have hlt : lo < inputs.length := by omega
    obtain ⟨xs, hxs, hlen⟩ := ih (lo + 1) (by omega)
    refine ⟨inputs.get ⟨lo, hlt⟩ :: xs, ?_, by simp [hlen]⟩
    simp only [accessRange, accessIdx_lt inputs lo hlt, hxs]

/-- A nonempty range of subscripts that goes past the length raises
IndexError. -/
theorem accessRange_err (inputs : List String) :
    ∀ (n lo : Nat), 1 ≤ n → inputs.length < lo + n →
      accessRange inputs lo n = Except.error CheckError.indexError := by
  intro n
  induction n with
  | zero => intro lo h1 h2; exact absurd h1 (by omega)
  | succ n ih =>
    intro lo h1 h2
    by_cases hlo : lo < inputs.length
    · have hn : 1 ≤ n := by omega
      simp only [accessRange, accessIdx_lt inputs lo hlo, ih (lo + 1) hn (by omega)]
    · simp only [accessRange, accessIdx_ge inputs lo (by omega)]

/-- reduce over a nonempty layer list succeeds. -/
theorem reduceConcat_ok (xs : List LayerDesc) (h : xs ≠ []) :
    ∃ y, reduceConcat xs = Except.ok y := by
  cases xs with
  | nil => exact absurd rfl h
  | cons a l => exact ⟨l.foldl LayerDesc.seqConcat a, rfl⟩

/-- In training mode with at least 1 + 4d input fields and d at least 1,
label creation succeeds. -/
theorem getLabels_ok (d : Nat) (hd : 1 ≤ d) (inputs : List String)
    (hlen : 1 + 4 * d ≤ inputs.length) :
    ∃ lb, getLabels false d inputs = Except.ok (some lb) := by
  have h5 : ¬ inputs.length < 5 := by omega
  obtain ⟨s1, hs1, hl1⟩ := accessRange_ok inputs d (1 + 2 * d) (by omega)
  have hs1ne : s1.map LayerDesc.data ≠ [] := by
    simp only [ne_eq, List.map_eq_nil_iff]
    intro hnil
    rw [hnil] at hl1
    simp at hl1
    omega
  obtain ⟨y1, hy1⟩ := reduceConcat_ok (s1.map LayerDesc.data) hs1ne
  obtain ⟨s2, hs2, hl2⟩ := accessRange_ok inputs d (1 + 3 * d) (by omega)
  have hs2ne : s2.map LayerDesc.data ≠ [] := by
    simp only [ne_eq, List.map_eq_nil_iff]
    intro hnil
    rw [hnil] at hl2
    simp at hl2
    omega
  obtain ⟨y2, hy2⟩ := reduceConcat_ok (s2.map LayerDesc.data) hs2ne
  refine ⟨(y1, y2), ?_⟩
  simp only [getLabels, Bool.false_eq_true, if_false, if_neg h5, hs1, hy1, hs2, hy2]

/-- In training mode with exactly 4d input fields and d at least 2, the
schema guard passes but reading the end labels walks past the last field:
IndexError, not the schema ValueError. -/
theorem getLabels_err_4d (d : Nat) (hd : 2 ≤ d) (inputs : List String)
    (hlen : inputs.length = 4 * d) :
    getLabels false d inputs = Except.error CheckError.indexError := by
  have h5 : ¬ inputs.length < 5 := by omega
  obtain ⟨s1, hs1, hl1⟩ := accessRange_ok inputs d (1 + 2 * d) (by omega)
  have hs1ne : s1.map LayerDesc.data ≠ [] := by
    simp only [ne_eq, List.map_eq_nil_iff]
    intro hnil
    rw [hnil] at hl1
    simp at hl1
    omega
  obtain ⟨y1, hy1⟩ := reduceConcat_ok (s1.map LayerDesc.data) hs1ne
  have herr := accessRange_err inputs d (1 + 3 * d) (by omega) (by omega)
  simp only [getLabels, Bool.false_eq_true, if_false, if_neg h5, hs1, hy1, herr]

/-- In training mode with fewer than 5 fields the schema guard raises. -/
theorem getLabels_schema (d : Nat) (inputs : List String)
    (h : inputs.length < 5) :
    getLabels false d inputs = Except.error CheckError.schemaError := by
  simp only [getLabels, Bool.false_eq_true, if_false, if_pos h]

/-- A label-creation error is the result of check_and_create_data. -/
theorem check_err_of_labels (d : Nat) (inputs : List String) (e : CheckError)
    (h : getLabels false d inputs = Except.error e) :
    check_and_create_data false d inputs = Except.error e := by
  simp only [check_and_create_data, h]

/-- In training mode with at least 1 + 4d fields and d at least 1, the
whole check succeeds. -/
theorem check_ok_training (d : Nat) (hd : 1 ≤ d) (inputs : List String)
    (hlen : 1 + 4 * d ≤ inputs.length) :
    ∃ cd, check_and_create_data false d inputs = Except.ok cd := by
  obtain ⟨lb, hlb⟩ := getLabels_ok d hd inputs hlen
  have h0 : (0 : Nat) < inputs.length := by omega
  obtain ⟨p1, hp1, -⟩ := accessRange_ok inputs d 1 (by omega)
  obtain ⟨l1, hl1, hle⟩ := accessRange_ok inputs d (1 + d) (by omega)
  have hl1ne : l1.map LayerDesc.data ≠ [] := by
    simp only [ne_eq, List.map_eq_nil_iff]
    intro hnil
    rw [hnil] at hle
    simp at hle
    omega
  obtain ⟨y3, hy3⟩ := reduceConcat_ok (l1.map LayerDesc.data) hl1ne
  refine ⟨{ q_ids := LayerDesc.data (inputs.get ⟨0, h0⟩),
            p_ids := p1.map LayerDesc.data,
            para_len := y3,
            start_label := some lb.1,
            end_label := some lb.2 }, ?_⟩
  simp only [check_and_create_data, hlb, accessIdx_lt inputs 0 h0, hp1, hl1, hy3,
    Option.map_some]
  rfl

/-- C2 counterexample: in training mode with documentCount = 2 and
4 * documentCount = 8 input fields, the check does not raise the schema
ValueError; it passes the count guard and fails reading the end labels
with an IndexError. -/
theorem C2_counterexample :
    check_and_create_data false 2 ["a", "b", "c", "d", "e", "f", "g", "h"]
      = Except.error CheckError.indexError
    ∧ CheckError.indexError ≠ CheckError.schemaError :=
  ⟨rfl, by decide⟩

/-- C2 amended: in training mode, 1 + 4*documentCount input fields always
validate successfully; 4*documentCount fields raise the schema ValueError
only for documentCount = 1 (since the guard is the constant
len(inputs) < 5), and for documentCount at least 2 they pass the guard and
fail with an IndexError instead. -/
theorem C2_amended :
    ∀ (d : Nat) (inputs inputs4 : List String), 1 ≤ d →
      inputs.length = 1 + 4 * d → inputs4.length = 4 * d →
      (∃ cd, check_and_create_data false d inputs = Except.ok cd)
      ∧ check_and_create_data false d inputs4 =
          Except.error (if d = 1 then CheckError.schemaError
                        else CheckError.indexError) := by
  intro d inputs inputs4 hd hlen hlen4
  constructor
  · exact check_ok_training d hd inputs (by omega)
  · by_cases hd1 : d = 1
    · rw [if_pos hd1]
      subst hd1
      exact check_err_of_labels 1 inputs4 CheckError.schemaError
        (getLabels_schema 1 inputs4 (by omega))
    · rw [if_neg hd1]
      exact check_err_of_labels d inputs4 CheckError.indexError
        (getLabels_err_4d d (by omega) inputs4 hlen4)

/-- C2 amended witness: instantiated at documentCount = 1 with 5 and 4
field names. -/
theorem C2_amended_witness :
    (∃ cd, check_and_create_data false 1 ["a", "b", "c", "d", "e"] = Except.ok cd)
    ∧ check_and_create_data false 1 ["a", "b", "c", "d"] =
        Except.error (if 1 = 1 then CheckError.schemaError
                      else CheckError.indexError) :=
  C2_amended 1 ["a", "b", "c", "d", "e"] ["a", "b", "c", "d"] (by decide) rfl rfl

/-- C7: for every metricKind other than marco and squad, evaluate raises
the unsupported-metric error and emits no log line (it never returns a
result, and the log lines only exist in a returned result); for marco it
dispatches to compute_metrics_from_list with maxRefs = 1 and for squad to
squad_eval.eval_lists, in both the from-file and the in-memory mode. -/
theorem C7_metric_dispatch :
    (∀ (mOf : MetricCall → List (String × String)) (cfg : QAModelCfg)
       (f : String) (ret : List (List InsInput × BatchOutput)) (ff : Bool)
       (fc : List StoredObj),
        cfg.metric ≠ "marco" → cfg.metric ≠ "squad" →
        (∀ res, QAModel.evaluate mOf cfg f ret ff fc ≠ Except.ok res)
        ∧ (ff = true →
           QAModel.evaluate mOf cfg f ret ff fc =
             Except.error (EvalError.unsupportedMetric cfg.metric)))
    ∧ (∀ (mOf : MetricCall → List (String × String)) (cfg : QAModelCfg)
       (f : String) (ret : List (List InsInput × BatchOutput))
       (fc : List StoredObj), cfg.metric = "marco" →
        QAModel.evaluate mOf cfg f ret true fc =
          Except.ok { call := MetricCall.marco (read_list fc).2 (read_list fc).1 1,
                      written := none,
                      logLines := [formatMetrics f
                        (mOf (MetricCall.marco (read_list fc).2 (read_list fc).1 1))] })
    ∧ (∀ (mOf : MetricCall → List (String × String)) (cfg : QAModelCfg)
       (f : String) (ret : List (List InsInput × BatchOutput))
       (fc : List StoredObj), cfg.metric = "squad" →
        QAModel.evaluate mOf cfg f ret true fc =
          Except.ok { call := MetricCall.squad (read_list fc).2 (read_list fc).1,
                      written := none,
                      logLines := [formatMetrics f
                        (mOf (MetricCall.squad (read_list fc).2 (read_list fc).1))] })
    ∧ (∀ (mOf : MetricCall → List (String × String)) (cfg : QAModelCfg)
       (f : String) (ret : List (List InsInput × BatchOutput))
       (fc : List StoredObj) (refs preds : List QAObj) (objs : List StoredObj),
        cfg.metric = "marco" →
        QAModel.parse_infer_ret cfg ret = Except.ok (refs, preds, objs) →
        QAModel.evaluate mOf cfg f ret false fc =
          Except.ok { call := MetricCall.marco preds refs 1,
                      written := some objs,
                      logLines := [formatMetrics f
                        (mOf (MetricCall.marco preds refs 1))] })
    ∧ (∀ (mOf : MetricCall → List (String × String)) (cfg : QAModelCfg)
       (f : String) (ret : List (List InsInput × BatchOutput))
       (fc : List StoredObj) (refs preds : List QAObj) (objs : List StoredObj),
        cfg.metric = "squad" →
        QAModel.parse_infer_ret cfg ret = Except.ok (refs, preds, objs) →
        QAModel.evaluate mOf cfg f ret false fc =
          Except.ok { call := MetricCall.squad preds refs,
                      written := some objs,
                      logLines := [formatMetrics f
                        (mOf (MetricCall.squad preds refs))] }) := by
  refine ⟨?_, ?_, ?_, ?_, ?_⟩
  · intro mOf cfg f ret ff fc h1 h2
    constructor
    · intro res
      cases ff with
      | true =>
        simp only [QAModel.evaluate]
        rw [if_true]
        dsimp only
        rw [if_neg h1, if_neg h2]
        simp
      | false =>
        simp only [QAModel.evaluate]
        rw [if_neg (by simp)]
        cases hp : QAModel.parse_infer_ret cfg ret with
        | error e => simp
        | ok tup =>
          obtain ⟨refs, preds, objs⟩ := tup
          dsimp only
          rw [if_neg h1, if_neg h2]
          simp
    · intro hff
      subst hff
      simp only [QAModel.evaluate]
      rw [if_true]
      dsimp only
      rw [if_neg h1, if_neg h2]
  · intro mOf cfg f ret fc h
    simp only [QAModel.evaluate]
    rw [if_true]
    dsimp only
    rw [if_pos h]
  · intro mOf cfg f ret fc h
    simp only [QAModel.evaluate]
    rw [if_true]
    dsimp only
    rw [if_neg (by rw [h]; decide), if_pos h]
  · intro mOf cfg f ret fc refs preds objs h hp
    simp only [QAModel.evaluate]
    rw [if_neg (by simp), hp]
    dsimp only
    rw [if_pos h]
  · intro mOf cfg f ret fc refs preds objs h hp
    simp only [QAModel.evaluate]
    rw [if_neg (by simp), hp]
    dsimp only
    rw [if_neg (by rw [h]; decide), if_pos h]

/-- C7 witness: the unknown-metric half applied at metric foo with
from_file = true. -/
theorem C7_metric_dispatch_witness :
    QAModel.evaluate (fun _ => []) cfgFoo "f" [] true [] =
      Except.error (EvalError.unsupportedMetric cfgFoo.metric) :=
  ((C7_metric_dispatch.1 (fun _ => []) cfgFoo "f" [] true []
      (by decide) (by decide)).2) rfl

/-- C8: the joint loss concatenates start and end probabilities and
labels, takes elementwise natural log, negates, multiplies with the
labels, sums per example and sums across the batch; for
start_label = [0,1,0], end_label = [0,0,1], start_prob = [0.2,0.7,0.1],
end_prob = [0.1,0.2,0.7] the loss is -log(0.7) - log(0.7), and the loss
is additive across the batch. -/
theorem C8_loss :
    get_loss [{ start_prob := [2/10, 7/10, 1/10], end_prob := [1/10, 2/10, 7/10],
                start_label := [0, 1, 0], end_label := [0, 0, 1] }]
      = -Real.log (7/10) - Real.log (7/10)
    ∧ ∀ b1 b2 : List LossInput, get_loss (b1 ++ b2) = get_loss b1 + get_loss b2 := by
  constructor
  · simp only [get_loss, exampleLoss, List.map_cons, List.map_nil, List.cons_append,
      List.nil_append, List.zipWith_cons_cons, List.zipWith_nil_right, List.sum_cons,
      List.sum_nil]
    ring
  · intro b1 b2
    simp [get_loss]
